import Mathlib

/-!
Verification of the talent-trends pipeline (src/warcraftlogs.rs, src/main.rs).

The embedding models the JSON payloads by the projections the code actually
reads (serde_json pointer/get chains become Option-valued fields), network
responses by oracles supplied in an environment record, and the streaming
coordinator as a recursive function producing the channel contents plus an
event trace (network calls and channel pushes).
-/

namespace TalentTrends

/-- Mirror of `struct TalentData` (warcraftlogs.rs lines 10-15). -/
structure TalentData where
  name : String
  talent_string : String
  log_url : String
deriving Repr, DecidableEq

/-- Modelled from the spec: the ranked record type `TalentDataWithRank` used by
`templates::render_talent_entry` and `get_talents_sse` is declared in the
missing streaming half of warcraftlogs.rs; per spec section 3 a TalentRecord
carries a 1-based rank position together with the record fields. -/
structure TalentDataWithRank where
  rank : Nat
  data : TalentData
deriving Repr, DecidableEq

/-- One rankings-array element, abstracted by the projections the loop body
reads: `rank.get("name").and_then(as_str)`, `rank.pointer("/report/code")
.and_then(as_str)`, `rank.pointer("/report/fightID").and_then(as_i64)`
(warcraftlogs.rs lines 250-264).  `none` stands for a missing key or a value
of the wrong JSON type. -/
structure RankJson where
  name : Option String
  reportCode : Option String
  fightID : Option Int
deriving Repr, DecidableEq

/-- One element of the masterData actor roster, abstracted by the projections
read at warcraftlogs.rs lines 128-137: `get("id").as_i64` and
`get("name").as_str`. -/
structure Actor where
  id : Option Int
  name : Option String
deriving Repr, DecidableEq

/-- Oracle for the two resolution queries of one entry.  `stage1` is the
observed outcome of the actor-roster query (transport, parse and
missing-pointer failures all collapse to `.error`, as each is turned into an
`Err` by `?`/`context` in the Rust); `stage2 actorId` is the outcome of the
talent-code query for a given actor id, with `.ok none` meaning the
`talentImportCode` pointer was absent or not a string. -/
structure TalentEnv where
  stage1 : Except String (List Actor)
  stage2 : Int → Except String (Option String)

/-- The actor-id lookup of warcraftlogs.rs lines 128-138: the first actor in
roster order whose `name` projection equals the player name, then its `id`
projection. -/
def findActorId (actors : List Actor) (player_name : String) : Option Int :=
  (actors.find? fun a => a.name == some player_name).bind fun a => a.id

/-- Whether a result is the failure variant. -/
def isErr {α : Type} (res : Except String α) : Bool :=
  match res with
  | .error _ => true
  | .ok _ => false

/-- Outcome of the second query body (warcraftlogs.rs lines 171-178):
`pointer(".../talentImportCode").as_str().context("No talent code found")`. -/
def stage2Outcome (res : Except String (Option String)) : Except String String :=
  match res with
  | .error e => .error e
  | .ok none => .error "No talent code found"
  | .ok (some code) => .ok code

/-- Mirror of `fetch_talent_string` (warcraftlogs.rs lines 79-179) over the
oracle.  The report code and fight id are fixed inside `env`; the second
component counts the network calls issued (the roster query always runs, the
talent-code query only once an actor id has been resolved). -/
def fetch_talent_string (env : TalentEnv) (player_name : String) :
    Except String String × Nat :=
  match env.stage1 with
  | .error e => (.error e, 1)
  | .ok actors =>
    match findActorId actors player_name with
    | none => (.error ("Actor " ++ player_name ++ " not found in masterData"), 1)
    | some actor_id => (stage2Outcome (env.stage2 actor_id), 2)

/-! ## Token cache (warcraftlogs.rs lines 23-70) -/

/-- Outcome of the environment/network when a call of `get_access_token` finds
the cache empty: credentials missing from the environment (no network call is
made), the OAuth POST failing (one network call), or success (one network
call). -/
inductive FetchOutcome where
  | noCreds
  | httpFail (e : String)
  | success (tok : String)
deriving Repr, DecidableEq

/-- One call of `get_access_token` (warcraftlogs.rs lines 27-70): result,
cache afterwards, and the number of network token fetches issued by the call.
A cached token is returned as-is with no expiry check; a successful exchange
stores the token it returns; a failure leaves the cache empty. -/
def tokenStep (cache : Option String) (env : FetchOutcome) :
    Except String String × Option String × Nat :=
  match cache with
  | some t => (.ok t, some t, 0)
  | none =>
    match env with
    | .noCreds => (.error "WCL_CLIENT_ID not set in .env", none, 0)
    | .httpFail e => (.error ("OAuth failed: " ++ e), none, 1)
    | .success tok => (.ok tok, some tok, 1)

/-- Sequential calls of `get_access_token` within one process lifetime:
final cache and total number of network token fetches. -/
def runTokenCalls : Option String → List FetchOutcome → Option String × Nat
  | c, [] => (c, 0)
  | c, e :: es =>
    let s := tokenStep c e
    let rest := runTokenCalls s.2.1 es
    (rest.1, s.2.2 + rest.2)

/-- Number of calls in a sequential run whose fetch succeeds (the cache was
empty and the exchange returned a token). -/
def runSuccessCount : Option String → List FetchOutcome → Nat
  | _, [] => 0
  | c, e :: es =>
    (match c, e with
     | none, .success _ => 1
     | _, _ => 0) + runSuccessCount (tokenStep c e).2.1 es

/-! ## Rankings query (warcraftlogs.rs lines 181-215, region spec-modelled) -/

/-- The class-name normalization `class.replace('_', "")` of
warcraftlogs.rs line 186: every underscore is removed. -/
def normalizeClassName (c : String) : String :=
  String.mk (c.data.filter fun ch => ch ≠ '_')

/-- The shape of the one characterRankings query: variables plus the
literal arguments fixed in the query text (metric dps, difficulty 5,
page 1; warcraftlogs.rs lines 191-215), plus the optional region filter. -/
structure RankingsQuery where
  className : String
  specName : String
  encounterId : Int
  metric : String
  difficulty : Nat
  page : Nat
  region : Option String
deriving Repr, DecidableEq

/-- Modelled from the spec: the region filter of the rankings query.  The
streaming `fetch_top_talents_stream` called from main.rs (and its region
parameter) is not present in warcraftlogs.rs; per spec sections 3 and 4.2 the
query is additionally filtered by region exactly when a region code is
supplied.  The remaining fields follow the query text of the batch
`fetch_top_talents` in warcraftlogs.rs lines 191-215. -/
def mkRankingsQuery (cls spec : String) (encounterId : Int)
    (region : Option String) : RankingsQuery :=
  ⟨normalizeClassName cls, spec, encounterId, "dps", 5, 1, region⟩

/-! ## Per-entry record construction (warcraftlogs.rs lines 250-292) -/

/-- `rank.get("name").and_then(as_str).unwrap_or("Unknown")` (line 251-254). -/
def extractName (r : RankJson) : String := r.name.getD "Unknown"

/-- `rank.pointer("/report/code").and_then(as_str).unwrap_or("")` (256-259). -/
def extractReportCode (r : RankJson) : String := r.reportCode.getD ""

/-- `rank.pointer("/report/fightID").and_then(as_i64).unwrap_or(0)` (261-264). -/
def extractFightId (r : RankJson) : Int := r.fightID.getD 0

/-- The log URL of warcraftlogs.rs lines 266-269. -/
def mkLogUrl (code : String) (fid : Int) : String :=
  "https://www.warcraftlogs.com/reports/" ++ code ++ "#fight=" ++ toString fid

/-- The talent-string computation of warcraftlogs.rs lines 272-283 for one
entry, together with the number of resolution network calls it issues.
Resolution is attempted only when the report code is non-empty and the fight
id positive; a failed or empty resolution yields the unavailable sentinel,
a skipped one the missing-data sentinel (and no network call). -/
def entryTalentString (env : TalentEnv) (r : RankJson) : String × Nat :=
  if extractReportCode r ≠ "" ∧ 0 < extractFightId r then
    match fetch_talent_string env (extractName r) with
    | (.ok s, n) => (if s ≠ "" then s else "[Talent data unavailable]", n)
    | (.error _, n) => ("[Talent data unavailable]", n)
  else ("[Missing report data]", 0)

/-- The complete record pushed for one entry (warcraftlogs.rs lines 285-291):
always structurally complete, with both sentinels folded into the talent
string. -/
def buildRecord (resolve : RankJson → TalentEnv) (r : RankJson) : TalentData :=
  { name := extractName r
    talent_string := (entryTalentString (resolve r) r).1
    log_url := mkLogUrl (extractReportCode r) (extractFightId r) }

/-- Modelled from the spec: the Anonymous filter of the missing streaming
coordinator.  Per spec sections 3 and 4.4 entries whose display name is
"Anonymous" are skipped before resolution and consume no rank slot. -/
def eligible (r : RankJson) : Bool := extractName r ≠ "Anonymous"

/-- Environment of one pipeline run: outcome of token acquisition, outcome of
the rankings fetch (error covers transport failure, an error payload and a
missing rankings array), and the per-entry resolution oracle. -/
structure StreamEnv where
  token : Except String String
  rankings : Except String (List RankJson)
  resolve : RankJson → TalentEnv

/-- Observable events of one pipeline run: the rankings query going out, the
resolution network calls of one entry (with their count), a successful push
of a ranked record onto the channel, a pushed terminal error record, and a
failed push against a closed channel. -/
inductive Ev where
  | rankingsQuery (q : RankingsQuery)
  | resolve (r : RankJson) (calls : Nat)
  | pushOk (rec : TalentDataWithRank)
  | pushErr (e : String)
  | pushFailed
deriving Repr, DecidableEq

/-- Modelled from the spec: the per-entry loop of the missing streaming
coordinator (spec section 4.4).  Entries are visited in order with a rank
counter starting at 1; the loop stops once 10 records have been emitted
(`10 < rank`); Anonymous entries are skipped without resolution or a rank
slot; each remaining entry is resolved (per the src loop body) and its record
pushed; `budget` is the number of pushes the consumer side still accepts, and
an exhausted budget (closed channel) stops the loop right after the one
resolution already in flight.  Returns the channel contents and the trace. -/
def runLoop (resolve : RankJson → TalentEnv) :
    List RankJson → Nat → Nat →
    List (Except String TalentDataWithRank) × List Ev
  | [], _, _ => ([], [])
  | r :: rest, rank, budget =>
    if 10 < rank then ([], [])
    else if extractName r = "Anonymous" then runLoop resolve rest rank budget
    else
      let rcd : TalentData := buildRecord resolve r
      let n := (entryTalentString (resolve r) r).2
      match budget with
      | 0 => ([], [.resolve r n, .pushFailed])
      | b + 1 =>
        let p := runLoop resolve rest (rank + 1) b
        (.ok ⟨rank, rcd⟩ :: p.1, .resolve r n :: .pushOk ⟨rank, rcd⟩ :: p.2)

/-- Modelled from the spec: the missing `fetch_top_talents_stream` called at
main.rs line 84 (spec section 4.4).  Token acquisition failure or rankings
failure pushes one terminal error record and stops before any record is
emitted; otherwise the loop over the returned entries runs.  The rankings
query event is recorded whenever the query was sent (also when its response
is an error). -/
def fetch_top_talents_stream (cls spec : String) (encounterId : Int)
    (region : Option String) (env : StreamEnv) (budget : Nat) :
    List (Except String TalentDataWithRank) × List Ev :=
  match env.token with
  | .error e => ([.error e], [.pushErr e])
  | .ok _ =>
    match env.rankings with
    | .error e =>
      ([.error e], [.rankingsQuery (mkRankingsQuery cls spec encounterId region), .pushErr e])
    | .ok entries =>
      let p := runLoop env.resolve entries 1 budget
      (p.1, .rankingsQuery (mkRankingsQuery cls spec encounterId region) :: p.2)

/-- Outbound events of the SSE endpoint: one data event per channel item
(a rendered record, or an error fragment carrying the error) and the final
completion marker.  Rendering a record to HTML is the presentation
collaborator (`templates::render_talent_entry`) and is kept as the record
itself here. -/
inductive SseEvent where
  | data (payload : Except String TalentDataWithRank)
  | complete
deriving Repr

/-- Mirror of `get_talents_sse` (main.rs lines 60-116): the "all" region
parameter means no region filter (lines 77-81); every received channel item
becomes one data event, and a completion event is always appended
(lines 83-108). -/
def get_talents_sse (cls spec : String) (encounterId : Int)
    (regionParam : String) (env : StreamEnv) (budget : Nat) : List SseEvent :=
  let region := if regionParam = "all" then none else some regionParam
  ((fetch_top_talents_stream cls spec encounterId region env budget).1.map
    SseEvent.data) ++ [SseEvent.complete]

/-! ## Derived notions used by the statements -/

/-- The eligible (non-Anonymous) entries of a rankings response, in order. -/
def filteredEntries (entries : List RankJson) : List RankJson :=
  entries.filter eligible

/-- The ranked records among the channel items. -/
def okRecords (out : List (Except String TalentDataWithRank)) :
    List TalentDataWithRank :=
  out.filterMap Except.toOption

/-- The records the loop emits for a list of already-filtered entries,
starting at a given rank. -/
def buildList (resolve : RankJson → TalentEnv) :
    List RankJson → Nat → List (Except String TalentDataWithRank)
  | [], _ => []
  | r :: rs, rank => .ok ⟨rank, buildRecord resolve r⟩ :: buildList resolve rs (rank + 1)

/-- Number of resolution events in a trace. -/
def countResolve : List Ev → Nat
  | [] => 0
  | .resolve _ _ :: t => countResolve t + 1
  | _ :: t => countResolve t

/-- Number of successful record pushes in a trace. -/
def countPushOk : List Ev → Nat
  | [] => 0
  | .pushOk _ :: t => countPushOk t + 1
  | _ :: t => countPushOk t

/-- Whether an event is the outgoing rankings query. -/
def isRankingsQuery : Ev → Bool
  | .rankingsQuery _ => true
  | _ => false

/-- A concrete resolution environment used to evaluate the theorems on
closed inputs: a three-actor roster with a duplicate name, and a talent-code
query that answers only for actor 9. -/
def sampleTalentEnv : TalentEnv :=
  ⟨.ok [⟨some 7, some "Bob"⟩, ⟨some 9, some "Alice"⟩, ⟨some 11, some "Alice"⟩],
   fun j => if j = 9 then .ok (some "TALENTCODE") else .error "wrong actor"⟩

/-- A resolution environment whose roster query fails. -/
def failingTalentEnv : TalentEnv :=
  ⟨.error "network down", fun _ => .error "network down"⟩

/-- A concrete rankings response used to evaluate the theorems: an Anonymous
entry, a resolvable entry, an entry with no usable payload, and an entry
whose resolution fails. -/
def sampleEntries : List RankJson :=
  [⟨some "Anonymous", some "r0", some 1⟩,
   ⟨some "Alice", some "abc", some 3⟩,
   ⟨none, none, none⟩,
   ⟨some "Bob", some "def", some 2⟩]

/-- A concrete pipeline environment over `sampleEntries`: the token and the
rankings fetch succeed, and resolution succeeds only for report "abc". -/
def sampleStreamEnv : StreamEnv :=
  ⟨.ok "token", .ok sampleEntries,
   fun r => if r.reportCode = some "abc" then sampleTalentEnv else failingTalentEnv⟩

/-- A pipeline environment whose token acquisition fails. -/
def deadTokenEnv : StreamEnv :=
  ⟨.error "oauth down", .ok sampleEntries, fun _ => failingTalentEnv⟩

/-- A pipeline environment whose rankings fetch fails. -/
def deadRankingsEnv : StreamEnv :=
  ⟨.ok "token", .error "no rankings", fun _ => failingTalentEnv⟩

/-- The ranked records built for a list of already-filtered entries. -/
def buildRanked (resolve : RankJson → TalentEnv) :
    List RankJson → Nat → List TalentDataWithRank
  | [], _ => []
  | r :: rs, rank => ⟨rank, buildRecord resolve r⟩ :: buildRanked resolve rs (rank + 1)

/-! ## Characterization of the loop -/

theorem runLoop_fst (resolve : RankJson → TalentEnv) :
    ∀ (entries : List RankJson) (rank budget : Nat),
    (runLoop resolve entries rank budget).1 =
      buildList resolve ((entries.filter eligible).take (min (11 - rank) budget)) rank := by
  intro entries
  induction entries with
  | nil => intro rank budget; simp [runLoop, buildList]
  | cons r rest ih =>
    intro rank budget
    by_cases h10 : 10 < rank
    · have h0 : 11 - rank = 0 := by omega
      simp [runLoop, h10, h0, buildList]
    · by_cases ha : extractName r = "Anonymous"
      · have he : eligible r = false := by simp [eligible, ha]
        simp [runLoop, h10, ha, List.filter_cons, he, ih]
      · have he : eligible r = true := by simp [eligible, ha]
        match budget with
        | 0 => simp [runLoop, h10, ha, List.filter_cons, he, buildList]
        | b + 1 =>
          have hmin : min (11 - rank) (b + 1) = min (10 - rank) b + 1 := by omega
          have hsub : 11 - (rank + 1) = 10 - rank := by omega
          simp only [runLoop, h10, if_false, ha, ite_false, List.filter_cons, he,
            if_true, hmin, List.take_succ_cons, buildList, ih, hsub]

theorem buildList_length (resolve : RankJson → TalentEnv) :
    ∀ (rs : List RankJson) (rank : Nat),
    (buildList resolve rs rank).length = rs.length := by
  intro rs
  induction rs with
  | nil => intro rank; simp [buildList]
  | cons r rest ih => intro rank; simp [buildList, ih]

theorem okRecords_buildList (resolve : RankJson → TalentEnv) :
    ∀ (rs : List RankJson) (rank : Nat),
    okRecords (buildList resolve rs rank) = buildRanked resolve rs rank := by
  intro rs
  induction rs with
  | nil => intro rank; simp [buildList, buildRanked, okRecords]
  | cons r rest ih =>
    intro rank
    simp [buildList, buildRanked, okRecords, List.filterMap_cons, Except.toOption]
    exact ih (rank + 1)

theorem buildRanked_map_rank (resolve : RankJson → TalentEnv) :
    ∀ (rs : List RankJson) (rank : Nat),
    (buildRanked resolve rs rank).map TalentDataWithRank.rank =
      List.range' rank rs.length := by
  intro rs
  induction rs with
  | nil => intro rank; simp [buildRanked]
  | cons r rest ih => intro rank; simp [buildRanked, List.range'_succ, ih]

theorem mem_buildRanked (resolve : RankJson → TalentEnv) :
    ∀ (rs : List RankJson) (rank : Nat) (d : TalentDataWithRank),
    d ∈ buildRanked resolve rs rank → ∃ r ∈ rs, d.data = buildRecord resolve r := by
  intro rs
  induction rs with
  | nil => intro rank d h; simp [buildRanked] at h
  | cons r rest ih =>
    intro rank d h
    simp only [buildRanked, List.mem_cons] at h
    rcases h with h | h
    · exact ⟨r, List.mem_cons_self r rest, by rw [h]⟩
    · obtain ⟨r2, hmem, hd⟩ := ih (rank + 1) d h
      exact ⟨r2, List.mem_cons_of_mem r hmem, hd⟩

theorem buildList_getElem? (resolve : RankJson → TalentEnv) :
    ∀ (rs : List RankJson) (rank i : Nat),
    (buildList resolve rs rank)[i]? =
      (rs[i]?).map fun r => Except.ok ⟨rank + i, buildRecord resolve r⟩ := by
  intro rs
  induction rs with
  | nil => intro rank i; simp [buildList]
  | cons r rest ih =>
    intro rank i
    match i with
    | 0 => simp [buildList]
    | i + 1 =>
      simp only [buildList, List.getElem?_cons_succ, ih (rank + 1) i]
      have : rank + 1 + i = rank + (i + 1) := by omega
      rw [this]

theorem runLoop_resolve_mem (resolve : RankJson → TalentEnv) :
    ∀ (entries : List RankJson) (rank budget : Nat) (r : RankJson) (m : Nat),
    Ev.resolve r m ∈ (runLoop resolve entries rank budget).2 →
    r ∈ (entries.filter eligible).take (budget + 1) := by
  intro entries
  induction entries with
  | nil => intro rank budget r m h; simp [runLoop] at h
  | cons e rest ih =>
    intro rank budget r m h
    by_cases h10 : 10 < rank
    · simp [runLoop, h10] at h
    · by_cases ha : extractName e = "Anonymous"
      · have he : eligible e = false := by simp [eligible, ha]
        rw [List.filter_cons, if_neg (by simp [he])]
        apply ih rank budget r m
        simpa [runLoop, h10, ha] using h
      · have he : eligible e = true := by simp [eligible, ha]
        rw [List.filter_cons, if_pos (by simp [he]), List.take_succ_cons]
        match budget with
        | 0 =>
          simp only [runLoop, h10, if_false, ha, ite_false] at h
          simp only [List.mem_cons] at h
          rcases h with h | h
          · cases h; exact List.mem_cons_self _ _
          · simp at h
        | b + 1 =>
          simp only [runLoop, h10, if_false, ha, ite_false, List.mem_cons] at h
          rcases h with h | h | h
          · cases h; exact List.mem_cons_self _ _
          · cases h
          · exact List.mem_cons_of_mem _ (ih (rank + 1) b r m h)

theorem runLoop_no_rankingsQuery (resolve : RankJson → TalentEnv) :
    ∀ (entries : List RankJson) (rank budget : Nat),
    (runLoop resolve entries rank budget).2.filter isRankingsQuery = [] := by
  intro entries
  induction entries with
  | nil => intro rank budget; simp [runLoop]
  | cons e rest ih =>
    intro rank budget
    by_cases h10 : 10 < rank
    · simp [runLoop, h10]
    · by_cases ha : extractName e = "Anonymous"
      · simpa [runLoop, h10, ha] using ih rank budget
      · match budget with
        | 0 => simp [runLoop, h10, ha, isRankingsQuery]
        | b + 1 =>
          simp only [runLoop, h10, if_false, ha, ite_false]
          simpa [List.filter_cons, isRankingsQuery] using ih (rank + 1) b

theorem runLoop_interleave (resolve : RankJson → TalentEnv) :
    ∀ (entries : List RankJson) (rank budget j : Nat),
    countPushOk (((runLoop resolve entries rank budget).2).take j) ≤
      countResolve (((runLoop resolve entries rank budget).2).take j) ∧
    countResolve (((runLoop resolve entries rank budget).2).take j) ≤
      countPushOk (((runLoop resolve entries rank budget).2).take j) + 1 := by
  intro entries
  induction entries with
  | nil => intro rank budget j; simp [runLoop, countPushOk, countResolve]
  | cons e rest ih =>
    intro rank budget j
    by_cases h10 : 10 < rank
    · simp [runLoop, h10, countPushOk, countResolve]
    · by_cases ha : extractName e = "Anonymous"
      · simpa [runLoop, h10, ha] using ih rank budget j
      · match budget with
        | 0 =>
          simp only [runLoop, h10, if_false, ha, ite_false]
          match j with
          | 0 => simp [countPushOk, countResolve]
          | 1 => simp [countPushOk, countResolve]
          | j + 2 => simp [countPushOk, countResolve, List.take_nil]
        | b + 1 =>
          simp only [runLoop, h10, if_false, ha, ite_false]
          match j with
          | 0 => simp [countPushOk, countResolve]
          | 1 => simp [countPushOk, countResolve]
          | j + 2 =>
            simp only [List.take_succ_cons, countPushOk, countResolve]
            have := ih (rank + 1) b j
            omega

theorem find?_first {α : Type} (p : α → Bool) :
    ∀ (pre : List α) (a : α) (post : List α),
    (∀ b ∈ pre, p b = false) → p a = true →
    (pre ++ a :: post).find? p = some a := by
  intro pre
  induction pre with
  | nil => intro a post _ hpa; simp [List.find?_cons, hpa]
  | cons b rest ih =>
    intro a post hpre hpa
    have hb : p b = false := hpre b (List.mem_cons_self b rest)
    simp only [List.cons_append, List.find?_cons, hb]
    exact ih a post (fun x hx => hpre x (List.mem_cons_of_mem b hx)) hpa

theorem fetch_calls_pos (env : TalentEnv) (name : String) :
    1 ≤ (fetch_talent_string env name).2 := by
  cases h1 : env.stage1 with
  | error e => simp [fetch_talent_string, h1]
  | ok actors =>
    cases h2 : findActorId actors name <;> simp [fetch_talent_string, h1, h2]

theorem entryTalent_missing (env : TalentEnv) (r : RankJson)
    (hcond : extractReportCode r = "" ∨ extractFightId r ≤ 0) :
    entryTalentString env r = ("[Missing report data]", 0) := by
  have hneg : ¬(extractReportCode r ≠ "" ∧ 0 < extractFightId r) := by
    rcases hcond with h | h
    · intro hc; exact hc.1 h
    · intro hc; omega
  simp [entryTalentString, hneg]

theorem entryTalent_unavailable (env : TalentEnv) (r : RankJson)
    (hcond : extractReportCode r ≠ "" ∧ 0 < extractFightId r)
    (hfail : isErr (fetch_talent_string env (extractName r)).1 = true) :
    (entryTalentString env r).1 = "[Talent data unavailable]" ∧
    0 < (entryTalentString env r).2 := by
  rcases hfe : fetch_talent_string env (extractName r) with ⟨res, nn⟩
  cases res with
  | ok s =>
    rw [hfe] at hfail
    simp [isErr] at hfail
  | error msg =>
    have hpos := fetch_calls_pos env (extractName r)
    rw [hfe] at hpos
    unfold entryTalentString
    rw [if_pos hcond, hfe]
    exact ⟨rfl, by simpa using hpos⟩

theorem buildRanked_length (resolve : RankJson → TalentEnv) :
    ∀ (rs : List RankJson) (rank : Nat),
    (buildRanked resolve rs rank).length = rs.length := by
  intro rs
  induction rs with
  | nil => intro rank; simp [buildRanked]
  | cons r rest ih => intro rank; simp [buildRanked, ih]

theorem runTokenCalls_cached (t : String) :
    ∀ (envs : List FetchOutcome), runTokenCalls (some t) envs = (some t, 0) := by
  intro envs
  induction envs with
  | nil => simp [runTokenCalls]
  | cons e rest ih => simp [runTokenCalls, tokenStep, ih]

theorem runSuccessCount_cached (t : String) :
    ∀ (envs : List FetchOutcome), runSuccessCount (some t) envs = 0 := by
  intro envs
  induction envs with
  | nil => simp [runSuccessCount]
  | cons e rest ih => simp [runSuccessCount, tokenStep, ih]

theorem runSuccessCount_le_one :
    ∀ (envs : List FetchOutcome) (c : Option String),
    runSuccessCount c envs ≤ 1 := by
  intro envs
  induction envs with
  | nil => intro c; simp [runSuccessCount]
  | cons e rest ih =>
    intro c
    cases c with
    | some t => simp [runSuccessCount, tokenStep, runSuccessCount_cached]
    | none =>
      cases e with
      | noCreds => simpa [runSuccessCount, tokenStep] using ih none
      | httpFail msg => simpa [runSuccessCount, tokenStep] using ih none
      | success tok => simp [runSuccessCount, tokenStep, runSuccessCount_cached]

theorem stream_fst (cls spec : String) (enc : Int) (region : Option String)
    (env : StreamEnv) (budget : Nat) (tok : String) (entries : List RankJson)
    (htok : env.token = .ok tok) (hrank : env.rankings = .ok entries) :
    (fetch_top_talents_stream cls spec enc region env budget).1 =
      buildList env.resolve ((filteredEntries entries).take (min 10 budget)) 1 := by
  have h := runLoop_fst env.resolve entries 1 budget
  simp only [fetch_top_talents_stream, htok, hrank]
  simpa [filteredEntries] using h

theorem stream_snd (cls spec : String) (enc : Int) (region : Option String)
    (env : StreamEnv) (budget : Nat) (tok : String) (entries : List RankJson)
    (htok : env.token = .ok tok) (hrank : env.rankings = .ok entries) :
    (fetch_top_talents_stream cls spec enc region env budget).2 =
      Ev.rankingsQuery (mkRankingsQuery cls spec enc region) ::
        (runLoop env.resolve entries 1 budget).2 := by
  simp [fetch_top_talents_stream, htok, hrank]

theorem okRecords_stream_length (cls spec : String) (enc : Int)
    (region : Option String) (env : StreamEnv) (budget : Nat) (tok : String)
    (entries : List RankJson)
    (htok : env.token = .ok tok) (hrank : env.rankings = .ok entries) :
    (okRecords (fetch_top_talents_stream cls spec enc region env budget).1).length =
      min (min 10 budget) (filteredEntries entries).length := by
  rw [stream_fst cls spec enc region env budget tok entries htok hrank,
    okRecords_buildList, buildRanked_length, List.length_take]

theorem stream_getElem? (cls spec : String) (enc : Int) (region : Option String)
    (env : StreamEnv) (budget : Nat) (tok : String) (entries : List RankJson)
    (j : Nat) (r2 : RankJson)
    (htok : env.token = .ok tok) (hrank : env.rankings = .ok entries)
    (hj : (filteredEntries entries)[j]? = some r2)
    (hlt : j < min (min 10 budget) (filteredEntries entries).length) :
    ((fetch_top_talents_stream cls spec enc region env budget).1)[j]? =
      some (.ok ⟨j + 1, buildRecord env.resolve r2⟩) := by
  rw [stream_fst cls spec enc region env budget tok entries htok hrank,
    buildList_getElem?]
  have hjm : j < min 10 budget := by omega
  rw [List.getElem?_take_of_lt hjm, hj]
  simp [Nat.add_comm 1 j]

/-! ## Claim theorems -/

/-- C7: talent resolution is a strict two-step dependent sequence.  Stage 1
searches the player-type actor roster for the first actor, in roster order,
whose name exactly equals the display name and fails if none matches (one
network call, stage 2 never executed); stage 2 runs only with stage 1's
resolved actor id and fails if the talent code is absent. -/
theorem c7_two_stage (env : TalentEnv) (name : String) :
    (∀ actors, env.stage1 = .ok actors →
       actors.find? (fun a => a.name == some name) = none →
       fetch_talent_string env name =
         (.error ("Actor " ++ name ++ " not found in masterData"), 1)) ∧
    (∀ pre a post i, env.stage1 = .ok (pre ++ a :: post) →
       (∀ b ∈ pre, b.name ≠ some name) → a.name = some name → a.id = some i →
       fetch_talent_string env name = (stage2Outcome (env.stage2 i), 2)) ∧
    (∀ pre a post i, env.stage1 = .ok (pre ++ a :: post) →
       (∀ b ∈ pre, b.name ≠ some name) → a.name = some name → a.id = some i →
       env.stage2 i = .ok none →
       fetch_talent_string env name = (.error "No talent code found", 2)) ∧
    ((fetch_talent_string env name).2 = 2 →
       ∃ actors a i, env.stage1 = .ok actors ∧
         actors.find? (fun b => b.name == some name) = some a ∧ a.id = some i) := by
  refine ⟨?_, ?_, ?_, ?_⟩
  · intro actors h1 hf
    simp [fetch_talent_string, h1, findActorId, hf]
  · intro pre a post i h1 hpre hname hid
    have hfind : (pre ++ a :: post).find? (fun b => b.name == some name) = some a := by
      apply find?_first
      · intro b hb; exact beq_eq_false_iff_ne.mpr (hpre b hb)
      · exact beq_iff_eq.mpr hname
    simp [fetch_talent_string, h1, findActorId, hfind, hid]
  · intro pre a post i h1 hpre hname hid h2none
    have hfind : (pre ++ a :: post).find? (fun b => b.name == some name) = some a := by
      apply find?_first
      · intro b hb; exact beq_eq_false_iff_ne.mpr (hpre b hb)
      · exact beq_iff_eq.mpr hname
    simp [fetch_talent_string, h1, findActorId, hfind, hid, h2none, stage2Outcome]
  · intro h2
    cases h1 : env.stage1 with
    | error e => simp [fetch_talent_string, h1] at h2
    | ok actors =>
      cases hf : actors.find? (fun b => b.name == some name) with
      | none =>
        have hnone : findActorId actors name = none := by simp [findActorId, hf]
        simp [fetch_talent_string, h1, hnone] at h2
      | some a =>
        cases hid : a.id with
        | none =>
          have hnone : findActorId actors name = none := by simp [findActorId, hf, hid]
          simp [fetch_talent_string, h1, hnone] at h2
        | some i => exact ⟨actors, a, i, rfl, hf, hid⟩

/-- C7 witness: on the concrete roster Bob(7), Alice(9), Alice(11), resolving
"Alice" runs stage 2 with the first matching actor id 9; resolving "Zed"
fails in stage 1 after a single call. -/
theorem c7_two_stage_witness :
    fetch_talent_string sampleTalentEnv "Alice" = (.ok "TALENTCODE", 2) ∧
    fetch_talent_string sampleTalentEnv "Zed" =
      (.error ("Actor " ++ "Zed" ++ " not found in masterData"), 1) := by
  constructor
  · have h := (c7_two_stage sampleTalentEnv "Alice").2.1
      [⟨some 7, some "Bob"⟩] ⟨some 9, some "Alice"⟩ [⟨some 11, some "Alice"⟩] 9
      rfl (by decide) rfl rfl
    exact h
  · exact (c7_two_stage sampleTalentEnv "Zed").1
      [⟨some 7, some "Bob"⟩, ⟨some 9, some "Alice"⟩, ⟨some 11, some "Alice"⟩]
      rfl (by decide)

/-- C5 as the claim states it: the missing-data sentinel (with no resolution
query) exactly when the report code is empty or the fight id is zero, and the
unavailable sentinel whenever resolution was reachable and fails. -/
def c5Stated : Prop :=
  ∀ (env : TalentEnv) (r : RankJson),
    ((extractReportCode r = "" ∨ extractFightId r = 0) →
       entryTalentString env r = ("[Missing report data]", 0)) ∧
    (¬(extractReportCode r = "" ∨ extractFightId r = 0) →
       isErr (fetch_talent_string env (extractName r)).1 = true →
       (entryTalentString env r).1 = "[Talent data unavailable]")

/-- C5 counterexample: an entry with report code "abc" and fight id -1 has a
non-empty code and a non-zero fight id, and its resolution environment fails,
yet the code substitutes "[Missing report data]" (the guard in
warcraftlogs.rs line 272 is `fight_id > 0`, not `fight_id != 0`). -/
theorem c5_counterexample : ¬ c5Stated := by
  intro h
  have h2 := (h failingTalentEnv ⟨some "X", some "abc", some (-1)⟩).2
  have hg : ¬(extractReportCode ⟨some "X", some "abc", some (-1)⟩ = "" ∨
      extractFightId ⟨some "X", some "abc", some (-1)⟩ = 0) := by decide
  have hl : isErr (fetch_talent_string failingTalentEnv
      (extractName ⟨some "X", some "abc", some (-1)⟩)).1 = true := rfl
  have hres := h2 hg hl
  have hv : (entryTalentString failingTalentEnv
      ⟨some "X", some "abc", some (-1)⟩).1 = "[Missing report data]" := rfl
  rw [hv] at hres
  exact absurd hres (by decide)

/-- C5 amended: for every processed entry, if the report code is empty or the
fight id is zero or negative, the talent string is exactly
"[Missing report data]" and no resolution query is attempted; otherwise, if
resolution fails for any reason, the talent string is exactly
"[Talent data unavailable]" (and at least one resolution query was made). -/
theorem c5_sentinels (env : TalentEnv) (r : RankJson) :
    ((extractReportCode r = "" ∨ extractFightId r ≤ 0) →
       entryTalentString env r = ("[Missing report data]", 0)) ∧
    ((extractReportCode r ≠ "" ∧ 0 < extractFightId r) →
       isErr (fetch_talent_string env (extractName r)).1 = true →
       (entryTalentString env r).1 = "[Talent data unavailable]" ∧
       0 < (entryTalentString env r).2) :=
  ⟨entryTalent_missing env r, entryTalent_unavailable env r⟩

/-- C5 witness: an entry with a missing report object gets the missing-data
sentinel with no resolution call; an entry with report "abc", fight 3 whose
roster query fails gets the unavailable sentinel after a resolution call. -/
theorem c5_sentinels_witness :
    entryTalentString failingTalentEnv ⟨some "P", none, none⟩ =
      ("[Missing report data]", 0) ∧
    ((entryTalentString failingTalentEnv ⟨some "P", some "abc", some 3⟩).1 =
       "[Talent data unavailable]" ∧
     0 < (entryTalentString failingTalentEnv ⟨some "P", some "abc", some 3⟩).2) := by
  constructor
  · exact (c5_sentinels failingTalentEnv ⟨some "P", none, none⟩).1 (Or.inl rfl)
  · exact (c5_sentinels failingTalentEnv ⟨some "P", some "abc", some 3⟩).2
      (by decide) rfl

/-- C9 as the claim states it: across sequential calls within a process
lifetime starting from an empty cache, at most one token fetch is ever
attempted. -/
def c9Stated : Prop :=
  ∀ envs : List FetchOutcome, (runTokenCalls none envs).2 ≤ 1

/-- C9 counterexample: two sequential calls whose OAuth exchange fails both
attempt a network fetch — a failed fetch leaves the cache empty
(warcraftlogs.rs lines 53-57 bail before the cache write at line 66), so the
fetch is re-attempted on the next call. -/
theorem c9_counterexample : ¬ c9Stated := by
  intro h
  have h2 := h [.httpFail "boom", .httpFail "boom"]
  have hv : (runTokenCalls none
      [FetchOutcome.httpFail "boom", FetchOutcome.httpFail "boom"]).2 = 2 := rfl
  omega

/-- C9 amended: once the cache holds a value, every call returns that token
with no expiry check and no network fetch; at most one token fetch ever
succeeds across sequential calls within a process lifetime (a failed fetch
leaves the cache empty and may be retried); a successful fetch stores exactly
the token it returns. -/
theorem c9_token_cache (t tok : String) (e : FetchOutcome)
    (envs : List FetchOutcome) :
    tokenStep (some t) e = (.ok t, some t, 0) ∧
    (runTokenCalls (some t) envs).2 = 0 ∧
    runSuccessCount none envs ≤ 1 ∧
    tokenStep none (.success tok) = (.ok tok, some tok, 1) := by
  refine ⟨rfl, ?_, runSuccessCount_le_one envs none, rfl⟩
  rw [runTokenCalls_cached]

/-- C4: for any valid parameter set and any rankings response, the pipeline
emits at most 10 records, and the rank numbers of the emitted records are
exactly 1..k, strictly increasing with no gaps, where k is the number of
records emitted. -/
theorem c4_rank_invariant (cls spec : String) (enc : Int) (region : Option String)
    (env : StreamEnv) (budget : Nat) :
    (okRecords (fetch_top_talents_stream cls spec enc region env budget).1).length ≤ 10 ∧
    (okRecords (fetch_top_talents_stream cls spec enc region env budget).1).map
        TalentDataWithRank.rank =
      List.range' 1
        (okRecords (fetch_top_talents_stream cls spec enc region env budget).1).length := by
  cases htok : env.token with
  | error e => simp [fetch_top_talents_stream, htok, okRecords, Except.toOption]
  | ok tok =>
    cases hrank : env.rankings with
    | error e => simp [fetch_top_talents_stream, htok, hrank, okRecords, Except.toOption]
    | ok entries =>
      rw [stream_fst cls spec enc region env budget tok entries htok hrank,
        okRecords_buildList]
      constructor
      · rw [buildRanked_length, List.length_take]
        omega
      · rw [buildRanked_map_rank, buildRanked_length]

/-- C2: entries whose display name is "Anonymous" are excluded before
resolution — they never appear among the emitted records, are never the
subject of a resolution event, and never consume a rank slot (the emitted
ranks stay consecutive from 1). -/
theorem c2_anonymous_excluded (cls spec : String) (enc : Int)
    (region : Option String) (env : StreamEnv) (budget : Nat) :
    (∀ d ∈ okRecords (fetch_top_talents_stream cls spec enc region env budget).1,
       d.data.name ≠ "Anonymous") ∧
    ((okRecords (fetch_top_talents_stream cls spec enc region env budget).1).map
        TalentDataWithRank.rank =
      List.range' 1
        (okRecords (fetch_top_talents_stream cls spec enc region env budget).1).length) ∧
    (∀ r m,
       Ev.resolve r m ∈ (fetch_top_talents_stream cls spec enc region env budget).2 →
       extractName r ≠ "Anonymous") := by
  cases htok : env.token with
  | error e => simp [fetch_top_talents_stream, htok, okRecords, Except.toOption]
  | ok tok =>
    cases hrank : env.rankings with
    | error e => simp [fetch_top_talents_stream, htok, hrank, okRecords, Except.toOption]
    | ok entries =>
      refine ⟨?_, ?_, ?_⟩
      · intro d hd
        rw [stream_fst cls spec enc region env budget tok entries htok hrank,
          okRecords_buildList] at hd
        obtain ⟨r, hr, hdata⟩ := mem_buildRanked env.resolve _ 1 d hd
        have hrf : r ∈ filteredEntries entries := List.take_subset _ _ hr
        have he : eligible r = true := (List.mem_filter.mp hrf).2
        have : extractName r ≠ "Anonymous" := by simpa [eligible] using he
        rw [hdata]
        simpa [buildRecord] using this
      · rw [stream_fst cls spec enc region env budget tok entries htok hrank,
          okRecords_buildList, buildRanked_map_rank, buildRanked_length]
      · intro r m hm
        rw [stream_snd cls spec enc region env budget tok entries htok hrank] at hm
        rcases List.mem_cons.mp hm with h | h
        · simp at h
        · have hmem := runLoop_resolve_mem env.resolve entries 1 budget r m h
          have hrf : r ∈ entries.filter eligible := List.take_subset _ _ hmem
          have he : eligible r = true := (List.mem_filter.mp hrf).2
          simpa [eligible] using he

/-- C3: when the token stage succeeds, the rankings stage sends exactly one
query for the first page of leaderboard entries, filtered by the normalized
class identifier, the spec identifier and the encounter id, with the metric
fixed to dps and the difficulty fixed to 5, and carrying the region filter
exactly when a region code is supplied. -/
theorem c3_rankings_query (cls spec : String) (enc : Int) (region : Option String)
    (env : StreamEnv) (budget : Nat) (tok : String) (htok : env.token = .ok tok) :
    (fetch_top_talents_stream cls spec enc region env budget).2.filter
        isRankingsQuery =
      [Ev.rankingsQuery (mkRankingsQuery cls spec enc region)] ∧
    (mkRankingsQuery cls spec enc region).metric = "dps" ∧
    (mkRankingsQuery cls spec enc region).difficulty = 5 ∧
    (mkRankingsQuery cls spec enc region).page = 1 ∧
    (mkRankingsQuery cls spec enc region).className = normalizeClassName cls ∧
    (mkRankingsQuery cls spec enc region).specName = spec ∧
    (mkRankingsQuery cls spec enc region).encounterId = enc ∧
    (mkRankingsQuery cls spec enc region).region = region := by
  refine ⟨?_, rfl, rfl, rfl, rfl, rfl, rfl, rfl⟩
  cases hrank : env.rankings with
  | error e => simp [fetch_top_talents_stream, htok, hrank, isRankingsQuery]
  | ok entries =>
    rw [stream_snd cls spec enc region env budget tok entries htok hrank,
      List.filter_cons]
    simp [isRankingsQuery, runLoop_no_rankingsQuery]

/-- C6: if token acquisition or the rankings fetch fails, the run aborts
before any record is emitted; the consumer sees exactly one terminal error
event followed by the completion marker, and zero talent records. -/
theorem c6_fatal_abort (cls spec : String) (enc : Int) (regionParam : String)
    (env : StreamEnv) (budget : Nat) (e : String) :
    (env.token = .error e →
       get_talents_sse cls spec enc regionParam env budget =
         [SseEvent.data (.error e), SseEvent.complete] ∧
       okRecords (fetch_top_talents_stream cls spec enc
         (if regionParam = "all" then none else some regionParam) env budget).1 = []) ∧
    (∀ tok, env.token = .ok tok → env.rankings = .error e →
       get_talents_sse cls spec enc regionParam env budget =
         [SseEvent.data (.error e), SseEvent.complete] ∧
       okRecords (fetch_top_talents_stream cls spec enc
         (if regionParam = "all" then none else some regionParam) env budget).1 = []) := by
  constructor
  · intro htok
    constructor
    · simp [get_talents_sse, fetch_top_talents_stream, htok]
    · simp [fetch_top_talents_stream, htok, okRecords, Except.toOption]
  · intro tok htok hrank
    constructor
    · simp [get_talents_sse, fetch_top_talents_stream, htok, hrank]
    · simp [fetch_top_talents_stream, htok, hrank, okRecords, Except.toOption]

/-- C1: records are delivered to the consumer incrementally over the
channel — at every point of the trace at most one resolution is ahead of the
deliveries (each record is pushed as its resolution finishes) — and when the
consumer accepts only n pushes, the number of delivered records is capped by
n, and no resolution network call is ever made for an eligible entry beyond
position n+1 (the producer halts within one resolution step). -/
theorem c1_incremental_stream (cls spec : String) (enc : Int)
    (region : Option String) (env : StreamEnv) (n : Nat) (tok : String)
    (entries : List RankJson)
    (htok : env.token = .ok tok) (hrank : env.rankings = .ok entries) :
    (okRecords (fetch_top_talents_stream cls spec enc region env n).1).length =
      min (min 10 n) (filteredEntries entries).length ∧
    (∀ r m, Ev.resolve r m ∈ (fetch_top_talents_stream cls spec enc region env n).2 →
       r ∈ (filteredEntries entries).take (n + 1)) ∧
    (∀ j,
       countPushOk ((fetch_top_talents_stream cls spec enc region env n).2.take j) ≤
         countResolve ((fetch_top_talents_stream cls spec enc region env n).2.take j) ∧
       countResolve ((fetch_top_talents_stream cls spec enc region env n).2.take j) ≤
         countPushOk ((fetch_top_talents_stream cls spec enc region env n).2.take j) + 1) := by
  refine ⟨okRecords_stream_length cls spec enc region env n tok entries htok hrank,
    ?_, ?_⟩
  · intro r m hm
    rw [stream_snd cls spec enc region env n tok entries htok hrank] at hm
    rcases List.mem_cons.mp hm with h | h
    · simp at h
    · simpa [filteredEntries] using runLoop_resolve_mem env.resolve entries 1 n r m h
  · intro j
    rw [stream_snd cls spec enc region env n tok entries htok hrank]
    match j with
    | 0 => simp [countPushOk, countResolve]
    | j + 1 =>
      simp only [List.take_succ_cons]
      have h := runLoop_interleave env.resolve entries 1 n j
      simpa [countPushOk, countResolve] using h

/-- C8: one entry's resolution failure is entry-local — the failing entry
gets the sentinel string, and every entry within the emission window is still
emitted at its position with its rank. -/
theorem c8_entry_local (cls spec : String) (enc : Int) (region : Option String)
    (env : StreamEnv) (budget : Nat) (tok : String) (entries : List RankJson)
    (i : Nat) (r : RankJson) (e : String)
    (htok : env.token = .ok tok) (hrank : env.rankings = .ok entries)
    (hi : (filteredEntries entries)[i]? = some r)
    (hfail : (fetch_talent_string (env.resolve r) (extractName r)).1 = .error e) :
    ((extractReportCode r ≠ "" ∧ 0 < extractFightId r) →
       (buildRecord env.resolve r).talent_string = "[Talent data unavailable]") ∧
    (okRecords (fetch_top_talents_stream cls spec enc region env budget).1).length =
      min (min 10 budget) (filteredEntries entries).length ∧
    (∀ j r2, (filteredEntries entries)[j]? = some r2 →
       j < min (min 10 budget) (filteredEntries entries).length →
       ((fetch_top_talents_stream cls spec enc region env budget).1)[j]? =
         some (.ok ⟨j + 1, buildRecord env.resolve r2⟩)) := by
  refine ⟨?_,
    okRecords_stream_length cls spec enc region env budget tok entries htok hrank,
    ?_⟩
  · intro hcond
    have h := (entryTalent_unavailable (env.resolve r) r hcond
      (by rw [hfail]; rfl)).1
    simpa [buildRecord] using h
  · intro j r2 hj hlt
    exact stream_getElem? cls spec enc region env budget tok entries j r2
      htok hrank hj hlt

/-- C10: an entry whose payload lacks a usable display-name string is not
skipped, and the pipeline emits for it a structurally complete record whose
name is exactly "Unknown", with the log URL constructed from whatever report
code and fight id the entry carried (empty code and fight 0 when missing). -/
theorem c10_unknown_name (resolve2 : RankJson → TalentEnv) (r : RankJson)
    (hname : r.name = none) :
    eligible r = true ∧
    (buildRecord resolve2 r).name = "Unknown" ∧
    (buildRecord resolve2 r).log_url =
      mkLogUrl (r.reportCode.getD "") (r.fightID.getD 0) ∧
    (r.reportCode = none → r.fightID = none →
       buildRecord resolve2 r =
         ⟨"Unknown", "[Missing report data]",
          "https://www.warcraftlogs.com/reports/#fight=0"⟩) ∧
    (∀ cls spec enc region env budget tok entries j,
       env.token = .ok tok → env.rankings = .ok entries →
       env.resolve = resolve2 →
       (filteredEntries entries)[j]? = some r →
       j < min (min 10 budget) (filteredEntries entries).length →
       ((fetch_top_talents_stream cls spec enc region env budget).1)[j]? =
         some (.ok ⟨j + 1, buildRecord resolve2 r⟩)) := by
  refine ⟨?_, ?_, rfl, ?_, ?_⟩
  · simp [eligible, extractName, hname]
  · simp [buildRecord, extractName, hname]
  · intro hcode hfid
    rcases r with ⟨rn, rc, rf⟩
    simp only at hname hcode hfid
    subst hname; subst hcode; subst hfid
    rfl
  · intro cls spec enc region env budget tok entries j htok hrank hres hj hlt
    rw [← hres]
    exact stream_getElem? cls spec enc region env budget tok entries j r
      htok hrank hj hlt

/-- C4 has no hypothesis; C2 witness: on the concrete run the rank-1 Alice
record is emitted with a non-Anonymous name, and the resolved Alice entry is
not Anonymous. -/
theorem c2_anonymous_excluded_witness :
    (⟨1, ⟨"Alice", "TALENTCODE",
        "https://www.warcraftlogs.com/reports/abc#fight=3"⟩⟩ :
      TalentDataWithRank).data.name ≠ "Anonymous" ∧
    extractName ⟨some "Alice", some "abc", some 3⟩ ≠ "Anonymous" := by
  constructor
  · exact (c2_anonymous_excluded "W" "S" 1 none sampleStreamEnv 5).1
      ⟨1, ⟨"Alice", "TALENTCODE",
        "https://www.warcraftlogs.com/reports/abc#fight=3"⟩⟩ (by decide)
  · exact (c2_anonymous_excluded "W" "S" 1 none sampleStreamEnv 5).2.2
      ⟨some "Alice", some "abc", some 3⟩ 2 (by decide)

/-- C3 witness: on the concrete run with region "US" exactly one rankings
query goes out, with the fixed metric, difficulty, page and the region. -/
theorem c3_rankings_query_witness :
    (fetch_top_talents_stream "Death_Knight" "Blood" 3009 (some "US")
        sampleStreamEnv 5).2.filter isRankingsQuery =
      [Ev.rankingsQuery (mkRankingsQuery "Death_Knight" "Blood" 3009 (some "US"))] ∧
    (mkRankingsQuery "Death_Knight" "Blood" 3009 (some "US")).region = some "US" ∧
    (mkRankingsQuery "Death_Knight" "Blood" 3009 (some "US")).metric = "dps" := by
  refine ⟨?_, ?_, ?_⟩
  · exact (c3_rankings_query "Death_Knight" "Blood" 3009 (some "US")
      sampleStreamEnv 5 "token" rfl).1
  · exact (c3_rankings_query "Death_Knight" "Blood" 3009 (some "US")
      sampleStreamEnv 5 "token" rfl).2.2.2.2.2.2.2
  · exact (c3_rankings_query "Death_Knight" "Blood" 3009 (some "US")
      sampleStreamEnv 5 "token" rfl).2.1

/-- C6 witness: a failed token acquisition and a failed rankings fetch each
yield exactly one error event followed by the completion marker and no
records. -/
theorem c6_fatal_abort_witness :
    get_talents_sse "W" "S" 1 "all" deadTokenEnv 5 =
      [SseEvent.data (.error "oauth down"), SseEvent.complete] ∧
    get_talents_sse "W" "S" 1 "US" deadRankingsEnv 5 =
      [SseEvent.data (.error "no rankings"), SseEvent.complete] := by
  constructor
  · exact ((c6_fatal_abort "W" "S" 1 "all" deadTokenEnv 5 "oauth down").1 rfl).1
  · exact ((c6_fatal_abort "W" "S" 1 "US" deadRankingsEnv 5 "no rankings").2
      "token" rfl rfl).1

/-- C1 witness: with a consumer that accepts one push the concrete run
delivers exactly one of the three eligible records, the resolved entries all
lie among the first two eligible entries, and at trace prefix length 3 the
deliveries trail the resolutions by at most one. -/
theorem c1_incremental_stream_witness :
    (okRecords (fetch_top_talents_stream "W" "S" 1 none sampleStreamEnv 1).1).length =
      min (min 10 1) (filteredEntries sampleEntries).length ∧
    (⟨some "Alice", some "abc", some 3⟩ : RankJson) ∈
      (filteredEntries sampleEntries).take 2 ∧
    (countPushOk ((fetch_top_talents_stream "W" "S" 1 none sampleStreamEnv 1).2.take 3) ≤
       countResolve ((fetch_top_talents_stream "W" "S" 1 none sampleStreamEnv 1).2.take 3) ∧
     countResolve ((fetch_top_talents_stream "W" "S" 1 none sampleStreamEnv 1).2.take 3) ≤
       countPushOk ((fetch_top_talents_stream "W" "S" 1 none sampleStreamEnv 1).2.take 3) + 1) := by
  refine ⟨?_, ?_, ?_⟩
  · exact (c1_incremental_stream "W" "S" 1 none sampleStreamEnv 1 "token"
      sampleEntries rfl rfl).1
  · exact (c1_incremental_stream "W" "S" 1 none sampleStreamEnv 1 "token"
      sampleEntries rfl rfl).2.1 ⟨some "Alice", some "abc", some 3⟩ 2 (by decide)
  · exact (c1_incremental_stream "W" "S" 1 none sampleStreamEnv 1 "token"
      sampleEntries rfl rfl).2.2 3

/-- C8 witness: on the concrete run the failing Bob entry gets the sentinel,
yet all three eligible entries are emitted, Bob included at rank 3. -/
theorem c8_entry_local_witness :
    (buildRecord sampleStreamEnv.resolve ⟨some "Bob", some "def", some 2⟩).talent_string =
      "[Talent data unavailable]" ∧
    (okRecords (fetch_top_talents_stream "W" "S" 1 none sampleStreamEnv 5).1).length =
      min (min 10 5) (filteredEntries sampleEntries).length ∧
    ((fetch_top_talents_stream "W" "S" 1 none sampleStreamEnv 5).1)[2]? =
      some (.ok ⟨3, buildRecord sampleStreamEnv.resolve
        ⟨some "Bob", some "def", some 2⟩⟩) := by
  have h := c8_entry_local "W" "S" 1 none sampleStreamEnv 5 "token" sampleEntries
    2 ⟨some "Bob", some "def", some 2⟩ "network down" rfl rfl (by decide) rfl
  exact ⟨h.1 (by decide), h.2.1,
    h.2.2 2 ⟨some "Bob", some "def", some 2⟩ (by decide) (by decide)⟩

/-- C10 witness: the all-missing entry is eligible, builds the
Unknown/missing-data record with the degenerate log URL, and is emitted at
rank 2 on the concrete run. -/
theorem c10_unknown_name_witness :
    eligible ⟨none, none, none⟩ = true ∧
    buildRecord sampleStreamEnv.resolve ⟨none, none, none⟩ =
      ⟨"Unknown", "[Missing report data]",
       "https://www.warcraftlogs.com/reports/#fight=0"⟩ ∧
    ((fetch_top_talents_stream "W" "S" 1 none sampleStreamEnv 5).1)[1]? =
      some (.ok ⟨2, buildRecord sampleStreamEnv.resolve ⟨none, none, none⟩⟩) := by
  have h := c10_unknown_name sampleStreamEnv.resolve ⟨none, none, none⟩ rfl
  exact ⟨h.1, h.2.2.2.1 rfl rfl,
    h.2.2.2.2 "W" "S" 1 none sampleStreamEnv 5 "token" sampleEntries 1
      rfl rfl rfl (by decide) (by decide)⟩

end TalentTrends
